import Mathlib

/-!
# Verification of the whisperdict capture-to-transcription pipeline

A shallow embedding, in Lean 4, of the core of the `whisperdict` desktop
dictation application (Rust sources under `src/src-tauri/src/`):

* `audio.rs` — `AudioBuffer` and the pure resampler `resample_to_16k`;
* `app_state.rs` — the orchestrator (`stop_recording`,
  `decrement_transcriptions`), the WAV encoder (`write_temp_wav`) and the
  transcription-server supervisor (`transcribe_with_server`, `spawn_server`);
* `child_transcribe.rs` — the child server's request parsing (`run_server`);
* `recording.rs` — the capture worker (`RecorderWorker`);
* `transcription.rs` — `transcribe_with_context`.

The Rust code computes with IEEE-754 `f32` values.  We model `f32` arithmetic
exactly: an `f32` value is a rational number, each primitive operation is the
exact rational operation followed by correct rounding to a 24-bit significand
with round-to-nearest, ties-to-even.  Overflow to infinity, subnormal loss and
NaN propagation are outside the modelled range: every quantity flowing through
the embedded code paths (sample rates, buffer lengths, samples clamped to
`[-1, 1]`, the `* 32767` products) is a normal, finite `f32`.

So that concrete witnesses evaluate inside the kernel (which cannot unfold
`Nat.gcd`-normalising `Rat` operations), rationals are represented as raw
numerator/denominator pairs `Qd` without normalisation; `Qd.val` maps them to
`ℚ` for the semantic lemmas.
-/

/-- An unnormalised rational number `n / d`.  All constructors used by the
embedding keep `0 < d`; the invariant is carried as a hypothesis in lemmas
rather than bundled, to keep kernel evaluation cheap. -/
structure Qd where
  n : ℤ
  d : ℤ
deriving DecidableEq, Repr

/-- The rational value denoted by a `Qd`. -/
def Qd.val (x : Qd) : ℚ := (x.n : ℚ) / (x.d : ℚ)

def Qd.ofInt (k : ℤ) : Qd := ⟨k, 1⟩

def Qd.ofNat (k : ℕ) : Qd := ⟨(k : ℤ), 1⟩

/-- Exact product (no rounding). -/
def Qd.mul (a b : Qd) : Qd := ⟨a.n * b.n, a.d * b.d⟩

/-- Exact sum (no rounding). -/
def Qd.add (a b : Qd) : Qd := ⟨a.n * b.d + b.n * a.d, a.d * b.d⟩

def Qd.neg (a : Qd) : Qd := ⟨-a.n, a.d⟩

/-- Exact difference (no rounding). -/
def Qd.sub (a b : Qd) : Qd := a.add b.neg

/-- Exact quotient, keeping the denominator positive.  The embedded code never
divides by zero (sample rates are positive); the `b.n = 0` branch is a junk
value standing in for the `f32` infinity that cannot arise. -/
def Qd.div (a b : Qd) : Qd :=
  if b.n = 0 then ⟨0, 1⟩
  else if 0 < b.n then ⟨a.n * b.d, a.d * b.n⟩
  else ⟨-(a.n * b.d), a.d * (-b.n)⟩

/-- Truncation toward zero, the semantics of Rust float-to-integer `as` casts
(for in-range values). -/
def Qd.trunc (x : Qd) : ℤ :=
  if 0 ≤ x.n then Int.ediv x.n x.d else -(Int.ediv (-x.n) x.d)

/-- Number of binary digits of `n` (0 for 0), via explicit fuel so that the
kernel can evaluate it. -/
def bitlenAux : ℕ → ℕ → ℕ
  | 0, _ => 0
  | fuel + 1, n => if n = 0 then 0 else bitlenAux fuel (n / 2) + 1

def bitlen (n : ℕ) : ℕ := bitlenAux n n

/-- Round the rational `a / b` (with `0 < b`) to the nearest integer,
ties to even. -/
def rneNum (a b : ℤ) : ℤ :=
  let q := Int.ediv a b
  let r := Int.emod a b
  if 2 * r < b then q
  else if b < 2 * r then q + 1
  else if Int.emod q 2 = 0 then q else q + 1

/-- `⌊log₂ (n / d)⌋` for positive integers `n`, `d`, computed exactly: a
first estimate from bit lengths is corrected by one comparison. -/
def qlog2 (n d : ℤ) : ℤ :=
  let e0 : ℤ := (bitlen n.toNat : ℤ) - (bitlen d.toNat : ℤ)
  if (if 0 ≤ e0 then d * 2 ^ e0.toNat ≤ n else d ≤ n * 2 ^ (-e0).toNat)
  then e0 else e0 - 1

/-- The 24-bit significand of `n / d` at exponent `E`: the rational
`(n / d) * 2^(23 - E)` rounded to the nearest integer, ties to even. -/
def f32sig (n d E : ℤ) : ℤ :=
  if 0 ≤ 23 - E then rneNum (n * 2 ^ (23 - E).toNat) d
  else rneNum n (d * 2 ^ (E - 23).toNat)

/-- Correct rounding of the positive rational `n / d` to a 24-bit significand
(IEEE-754 binary32, round-to-nearest ties-to-even, unbounded exponent). -/
def f32roundPos (n d : ℤ) : Qd :=
  let E := qlog2 n d
  let m := f32sig n d E
  if 0 ≤ E - 23 then ⟨m * 2 ^ (E - 23).toNat, 1⟩ else ⟨m, 2 ^ (23 - E).toNat⟩

/-- Correct rounding of an arbitrary `Qd` to an `f32` value. -/
def f32round (x : Qd) : Qd :=
  if x.n = 0 then ⟨0, 1⟩
  else if x.n < 0 then
    let p := f32roundPos (-x.n) x.d
    ⟨-p.n, p.d⟩
  else f32roundPos x.n x.d

/-- `f32` multiplication: exact product, then rounding. -/
def f32mul (a b : Qd) : Qd := f32round (a.mul b)

/-- `f32` addition: exact sum, then rounding. -/
def f32add (a b : Qd) : Qd := f32round (a.add b)

/-- `f32` subtraction: exact difference, then rounding. -/
def f32sub (a b : Qd) : Qd := f32round (a.sub b)

/-- `f32` division: exact quotient, then rounding. -/
def f32div (a b : Qd) : Qd := f32round (a.div b)

/-- Integer-to-float conversion (`as f32` on a `u32`/`usize`), which rounds to
nearest for values above 2²⁴. -/
def f32ofNat (k : ℕ) : Qd := f32round (Qd.ofNat k)

/-!
## `audio.rs`: `AudioBuffer` and `resample_to_16k`

```rust
pub struct AudioBuffer { pub samples: Vec<f32>, pub sample_rate: u32 }

pub fn resample_to_16k(buffer: AudioBuffer) -> AudioBuffer {
    if buffer.sample_rate == 16_000 { return buffer; }
    let ratio = 16_000.0 / buffer.sample_rate as f32;
    let out_len = (buffer.samples.len() as f32 * ratio) as usize;
    let mut out = Vec::with_capacity(out_len);
    for i in 0..out_len {
        let src_pos = i as f32 / ratio;
        let idx = src_pos.floor() as usize;
        let frac = src_pos - idx as f32;
        let a = buffer.samples.get(idx).copied().unwrap_or(0.0);
        let b = buffer.samples.get(idx + 1).copied().unwrap_or(a);
        out.push(a + (b - a) * frac);
    }
    AudioBuffer { samples: out, sample_rate: 16_000 }
}
```
-/

structure AudioBuffer where
  samples : List Qd
  sample_rate : ℕ
deriving DecidableEq, Repr

/-- The `f32` ratio `16_000.0 / buffer.sample_rate as f32`. -/
def f32ratio16k (rate : ℕ) : Qd := f32div (Qd.ofNat 16000) (f32ofNat rate)

/-- The output length `(buffer.samples.len() as f32 * ratio) as usize` computed
by `resample_to_16k` (Rust float-to-`usize` casts truncate toward zero and
saturate below at 0). -/
def f32OutLen (len rate : ℕ) : ℕ :=
  ((f32mul (f32ofNat len) (f32ratio16k rate)).trunc).toNat

/-- Shallow embedding of `audio.rs::resample_to_16k`.  `src_pos.floor()` on a
non-negative `f32` followed by `as usize` is truncation toward zero. -/
def resample_to_16k (buffer : AudioBuffer) : AudioBuffer :=
  if buffer.sample_rate = 16000 then buffer
  else
    let rconv := f32ratio16k buffer.sample_rate
    let out_len := f32OutLen buffer.samples.length buffer.sample_rate
    let out := (List.range out_len).map (fun i =>
      let src_pos := f32div (f32ofNat i) rconv
      let idx := src_pos.trunc.toNat
      let frac := f32sub src_pos (f32ofNat idx)
      let a := buffer.samples.getD idx (Qd.ofInt 0)
      let b := buffer.samples.getD (idx + 1) a
      f32add a (f32mul (b.sub a) frac))
    { samples := out, sample_rate := 16000 }

/-!
## `app_state.rs`: the WAV encoder `write_temp_wav`

```rust
for &sample in samples {
    let clamped = sample.clamp(-1.0, 1.0);
    let value = (clamped * i16::MAX as f32) as i16;
    writer.write_sample(value).context("write wav sample")?;
}
```

The writer emits one signed 16-bit PCM sample per input sample, into a mono
16 kHz 16-bit WAV container at a timestamped path under the temp directory.
We model the sequence of 16-bit sample values written.
-/

/-- `f32::clamp(-1.0, 1.0)` on a `Qd` with positive denominator:
`x < -1 ↦ -1`, `x > 1 ↦ 1`, else `x`. -/
def clampUnit (s : Qd) : Qd :=
  if s.n < -s.d then ⟨-1, 1⟩ else if s.d < s.n then ⟨1, 1⟩ else s

/-- Rust `as i16` on a float: truncate toward zero, saturating at the `i16`
range bounds. -/
def i16sat (k : ℤ) : ℤ :=
  if k < -32768 then -32768 else if 32767 < k then 32767 else k

/-- The 16-bit value written for one input sample. -/
def wavSample (s : Qd) : ℤ :=
  i16sat ((f32mul (clampUnit s) (Qd.ofInt 32767)).trunc)

/-- Shallow embedding of `app_state.rs::write_temp_wav`: the list of 16-bit
sample values written to the temp WAV file, in order. -/
def write_temp_wav (samples : List Qd) : List ℤ := samples.map wavSample

/-!
## Strings: Rust `str::trim` / blank-line tests

Modelled on the character list underlying a `String` so the kernel can
evaluate them (the ASCII protocol lines of this program make Rust's Unicode
trimming and `Char.isWhitespace` agree).
-/

/-- Rust `line.trim()`. -/
def strTrim (s : String) : String :=
  ⟨((s.data.dropWhile Char.isWhitespace).reverse.dropWhile Char.isWhitespace).reverse⟩

/-- Rust `line.trim().is_empty()`. -/
def strBlank (s : String) : Bool := s.data.all Char.isWhitespace

/-!
## `app_state.rs`: the transcription-server supervisor

```rust
fn transcribe_with_server(server, model_id, model_path, wav_path, language) -> Result<String> {
    let mut guard = server.lock().unwrap();
    let needs_restart = guard.as_ref().map(|s| s.model_id != model_id).unwrap_or(true);
    if needs_restart { *guard = Some(spawn_server(model_id, model_path)?); }
    let srv = guard.as_mut().context("missing server")?;
    writeln!(srv.stdin, "{}\t{}", language, wav_path).context("write wav path")?;
    srv.stdin.flush().context("flush stdin")?;
    let mut line = String::new();
    let read = srv.stdout.read_line(&mut line).context("read child")?;
    if read == 0 || line.trim().is_empty() {
        *guard = Some(spawn_server(model_id, model_path)?);
        let srv = guard.as_mut().context("missing server")?;
        writeln!(srv.stdin, "{}\t{}", language, wav_path).context("write wav path retry")?;
        srv.stdin.flush().context("flush stdin retry")?;
        line.clear();
        srv.stdout.read_line(&mut line).context("read child retry")?;
    }
    Ok(line.trim().to_string())
}
```

The mutex makes each call a sequential interaction with at most two child
processes.  We model the outside world by an oracle indexed by spawn order:
the `i`-th process ever spawned has index `i`; the pre-existing handle (from
preloading or an earlier call) carries the index it got at its spawn.
`read_line` returning `Ok(0)` (EOF) leaves `line` empty, so the health check
`read == 0 || line.trim().is_empty()` is equivalent to `line.trim().is_empty()`
on the line the oracle delivers.
-/

/-- One request line, as framed by the supervisor:
`writeln!(srv.stdin, "{}\t{}", language, wav_path)` (trailing newline omitted,
matching what the child's `lines()` iterator yields). -/
def requestLine (language wav_path : String) : String :=
  language ++ "\t" ++ wav_path

structure TranscribeServer where
  model_id : String
  idx : ℕ
deriving DecidableEq, Repr

/-- The supervisor's guarded state: the optional live handle and the index the
next spawned process will get. -/
structure SupState where
  server : Option TranscribeServer
  nextIdx : ℕ
deriving DecidableEq, Repr

/-- The environment of a supervisor call: for each process index, whether
spawning it fails (`some` error), whether writing its request fails, and what
one `read_line` from it yields (`.ok ""` models EOF / a dead process). -/
structure ServerEnv where
  spawnErr : ℕ → Option String
  writeErr : ℕ → Option String
  readRes : ℕ → Except String String

/-- Observable side effects of one supervisor call: number of child processes
spawned, request lines written (in order), number of reads performed. -/
structure SupTrace where
  spawns : ℕ
  writes : List String
  reads : ℕ
deriving DecidableEq, Repr

/-- `app_state.rs::spawn_server`, relative to the environment: on success the
guarded handle is replaced by a fresh process with the next index. -/
def spawn_server (env : ServerEnv) (st : SupState) (model_id model_path : String) :
    Except String (TranscribeServer × SupState) :=
  match env.spawnErr st.nextIdx with
  | some e => .error e
  | none =>
      let srv : TranscribeServer := ⟨model_id, st.nextIdx⟩
      .ok (srv, ⟨some srv, st.nextIdx + 1⟩)

/-- The `needs_restart` test of `transcribe_with_server`. -/
def needsRestart (st : SupState) (model_id : String) : Bool :=
  match st.server with
  | some s => s.model_id != model_id
  | none => true

/-- Shallow embedding of `app_state.rs::transcribe_with_server` (`model_path`
is forwarded to `spawn_server` as in the source; the oracle absorbs it). -/
def transcribe_with_server (env : ServerEnv) (st : SupState)
    (model_id model_path wav_path language : String) :
    Except String String × SupState × SupTrace :=
  let req := requestLine language wav_path
  match (if needsRestart st model_id then spawn_server env st model_id model_path
             else match st.server with
                  | some s => .ok (s, st)
                  | none => .error "missing server") with
  | .error e => (.error e, st, ⟨0, [], 0⟩)
  | .ok (srv, st1) =>
      let k := if needsRestart st model_id then 1 else 0
      match env.writeErr srv.idx with
      | some e => (.error e, st1, ⟨k, [req], 0⟩)
      | none =>
          match env.readRes srv.idx with
          | .error e => (.error e, st1, ⟨k, [req], 1⟩)
          | .ok line =>
              if strBlank line then
                match spawn_server env st1 model_id model_path with
                | .error e => (.error e, st1, ⟨k, [req], 1⟩)
                | .ok (srv2, st2) =>
                    match env.writeErr srv2.idx with
                    | some e => (.error e, st2, ⟨k + 1, [req, req], 1⟩)
                    | none =>
                        match env.readRes srv2.idx with
                        | .error e => (.error e, st2, ⟨k + 1, [req, req], 2⟩)
                        | .ok line2 => (.ok (strTrim line2), st2, ⟨k + 1, [req, req], 2⟩)
              else (.ok (strTrim line), st1, ⟨k, [req], 1⟩)

/-!
## `child_transcribe.rs`: the server side of the protocol

```rust
for line in stdin.lock().lines() {
    let wav_path = line.context("read line")?;
    if wav_path.trim().is_empty() { continue; }
    let text = match transcribe_wav_with_ctx(&ctx, &wav_path) { ... };
    ...
}
```

The child binds the **entire** line to `wav_path` — it never splits off the
language field the supervisor prepends — and `transcribe_wav_with_ctx` calls
`hound::WavReader::open(wav_path)` on it (and then hardcodes `Some("es")` as
the language).
-/

/-- The WAV path the child server opens for a received request line
(`none` when the blank-line guard skips the request). -/
def child_wav_path (line : String) : Option String :=
  if strBlank line then none else some line

/-!
## `recording.rs`: the capture worker

```rust
pub fn start(&self) -> Result<()> {
    self.tx.send(Command::Start).context("start recording")?;
    Ok(())
}
...
Command::Start => {
    if recorder.is_none() {
        if let Ok(r) = Recorder::start() {
            recorder = Some(r);
            recording_flag.store(true, Ordering::SeqCst);
        }
    }
}
```

`RecorderWorker::start` only enqueues `Command::Start`; the send can fail only
if the receiver is gone, and the worker thread owns the receiver for the whole
process lifetime, so the call returns `Ok(())`.  The worker thread then tries
to acquire the device; on failure (`if let Ok`) the error is dropped, the
recorder stays `None` and the flag stays `false`.  No panic escapes.
-/

/-- Device-acquisition oracle: result of the `n`-th `Recorder::start()`. -/
structure RecEnv where
  deviceStart : ℕ → Except String Unit

structure RecWorkerState where
  recorderLive : Bool
  attempts : ℕ
  flag : Bool
deriving DecidableEq, Repr

/-- The worker thread's handling of `Command::Start`. -/
def workerHandleStart (env : RecEnv) (st : RecWorkerState) : RecWorkerState :=
  if st.recorderLive then st
  else
    match env.deviceStart st.attempts with
    | .ok () => { recorderLive := true, attempts := st.attempts + 1, flag := true }
    | .error _ => { st with attempts := st.attempts + 1 }

/-- `RecorderWorker::start()` together with the worker's processing of the
queued command: the call's return value and the worker state it leads to. -/
def RecorderWorker_start (env : RecEnv) (st : RecWorkerState) :
    Except String Unit × RecWorkerState :=
  (.ok (), workerHandleStart env st)

/-!
## `app_state.rs`: config and `decrement_transcriptions`

```rust
fn decrement_transcriptions(&self) -> Result<()> {
    let mut config = self.config.lock().unwrap();
    if config.free_transcriptions_left > 0 {
        config.free_transcriptions_left -= 1;
        save_config(&config)?;
    }
    Ok(())
}
```

`free_transcriptions_left` is a `u32` field of the persisted `AppConfig`
(surfaced through `licensing.rs::LicenseState`); the guard makes the
subtraction safe, so `ℕ` models it exactly.
-/

structure AppConfig where
  active_model : String
  language : String
  free_transcriptions_left : ℕ
deriving DecidableEq, Repr

/-- Shallow embedding of `AppState::decrement_transcriptions`.  `saveRes` is
the outcome `save_config` would report; the returned `Bool` records whether
`save_config` was invoked at all. -/
def decrement_transcriptions (saveRes : Except String Unit) (config : AppConfig) :
    Except String Unit × AppConfig × Bool :=
  if config.free_transcriptions_left > 0 then
    let config' := { config with
      free_transcriptions_left := config.free_transcriptions_left - 1 }
    match saveRes with
    | .ok () => (.ok (), config', true)
    | .error e => (.error e, config', true)
  else (.ok (), config, false)

/-!
## `app_state.rs`: the orchestrator, `stop_recording`

```rust
pub async fn stop_recording(&self, app: &AppHandle) -> Result<String> {
    if !self.recorder.is_recording() { return Ok(String::new()); }
    self.tray.set_mode(TrayMode::Processing);
    let _ = app.emit("status:changed", ...);            // "processing"
    let audio = resample_to_16k(self.recorder.stop()?);
    if audio.samples.is_empty() {
        self.tray.set_mode(TrayMode::Idle);
        return Ok(String::new());
    }
    ... model_path / model_is_valid / download ...
    let wav_path = write_temp_wav(&audio.samples)?;
    let text_result = task::spawn_blocking(move || transcribe_with_server(...)).await...;
    let text = match text_result { Ok(text) => text, Err(err) => { ...Error...; return Err(err); } };
    let _ = fs::remove_file(&wav_path);
    if !text.is_empty() { let _ = paste_text(&text); let _ = self.decrement_transcriptions(); }
    let _ = app.emit("transcription:result", ...);
    self.tray.set_mode(TrayMode::Idle);
    let _ = app.emit("status:changed", ...);            // "idle"
    Ok(text)
}
```

Collaborators (capture worker, model store, WAV writer, supervisor, paste)
are oracles; the ordered effect list records the externally observable calls.
Tray-icon mode changes are the visual collaborator and are not traced.
-/

inductive OrchEffect where
  | emitStatus : String → OrchEffect
  | stopCapture : OrchEffect
  | download : OrchEffect
  | writeWav : OrchEffect
  | invokeServer : OrchEffect
  | removeTemp : OrchEffect
  | paste : OrchEffect
  | decrement : OrchEffect
  | emitResult : OrchEffect
deriving DecidableEq, Repr

structure OrchEnv where
  stopResult : Except String AudioBuffer
  modelPath : Except String String
  modelValid : Except String Bool
  downloadRes : Except String Unit
  writeWavRes : Except String String
  transcribeRes : Except String String

/-- Shallow embedding of `AppState::stop_recording`: result and the ordered
list of collaborator calls, as a function of the recording flag, the current
config and the collaborator oracles. -/
def stop_recording (env : OrchEnv) (isRecording : Bool) (config : AppConfig) :
    Except String String × List OrchEffect :=
  if !isRecording then (.ok "", [])
  else
    let effs0 := [OrchEffect.emitStatus "processing", OrchEffect.stopCapture]
    match env.stopResult with
    | .error e => (.error e, effs0)
    | .ok buf =>
        let resampled := resample_to_16k buf
        if resampled.samples.isEmpty then (.ok "", effs0)
        else
          match env.modelPath with
          | .error e => (.error e, effs0)
          | .ok _ =>
              match env.modelValid with
              | .error e => (.error e, effs0)
              | .ok valid =>
                  let effs1 := effs0 ++ (if valid then [] else [OrchEffect.download])
                  match (if valid then Except.ok () else env.downloadRes) with
                  | .error e => (.error e, effs1)
                  | .ok () =>
                      let effs2 := effs1 ++ [OrchEffect.writeWav]
                      match env.writeWavRes with
                      | .error e => (.error e, effs2)
                      | .ok _ =>
                          let effs3 := effs2 ++ [OrchEffect.invokeServer]
                          match env.transcribeRes with
                          | .error e => (.error e, effs3 ++ [OrchEffect.emitStatus "error"])
                          | .ok text =>
                              let effs4 := effs3 ++ [OrchEffect.removeTemp]
                              let effs5 := effs4 ++
                                (if text.isEmpty then []
                                 else [OrchEffect.paste, OrchEffect.decrement])
                              (.ok text,
                               effs5 ++ [OrchEffect.emitResult, OrchEffect.emitStatus "idle"])

/-!
## `transcription.rs`: `transcribe_with_context`

```rust
pub fn transcribe_with_context(ctx, audio, language, detect_language) -> Result<String> {
    if audio.len() < 16_000 / 4 { return Ok(String::new()); }
    let mut cleaned = ...;                 // clamp non-finite/out-of-range samples
    if max_abs > 1.0 { ... }               // renormalise (dead after clamping)
    let mut params = ...;                  // language selection etc.
    let mut state = ctx.create_state().context("create whisper state")?;
    state.full(params, &cleaned).context("transcribe audio")?;
    ... collect segment texts ...
    Ok(text.trim().to_string())
}
```

The whisper context is an oracle; the returned `Bool` records whether
inference (`state.full`) ran.
-/

/-- Absolute value of a `Qd` (for the cleaning pass's `max_abs`). -/
def Qd.qabs (x : Qd) : Qd := ⟨if x.n < 0 then -x.n else x.n, x.d⟩

/-- `a < b` on `Qd` with positive denominators, by cross-multiplication. -/
def Qd.blt (a b : Qd) : Bool := a.n * b.d < b.n * a.d

structure WhisperEnv where
  createState : Except String Unit
  fullRes : List Qd → Except String (List String)

/-- Shallow embedding of `transcription.rs::transcribe_with_context`; the
second component records whether `state.full` (inference) was invoked.
`Qd` samples are always finite, so the `is_finite` guard of the cleaning pass
is vacuous in the model. -/
def transcribe_with_context (env : WhisperEnv) (au : List Qd)
    (language : Option String) (detect_language : Bool) : Except String String × Bool :=
  if au.length < 16000 / 4 then (.ok "", false)
  else
    let cleaned := au.map clampUnit
    let maxAbs := cleaned.foldl (fun m v => if m.blt v.qabs then v.qabs else m) (Qd.ofInt 0)
    let cleaned := if (Qd.ofInt 1).blt maxAbs then cleaned.map (fun v => v.div maxAbs)
                   else cleaned
    match env.createState with
    | .error e => (.error e, false)
    | .ok () =>
        match env.fullRes cleaned with
        | .error e => (.error e, true)
        | .ok segs => (.ok (strTrim (String.join segs)), true)

/-!
## Helper lemmas
-/

/-- Off the identity branch, `resample_to_16k` emits a 16 kHz buffer whose
length is the `f32` computation `(len as f32 * ratio) as usize`. -/
theorem resample_length (b : AudioBuffer) (h : b.sample_rate ≠ 16000) :
    (resample_to_16k b).sample_rate = 16000 ∧
    (resample_to_16k b).samples.length = f32OutLen b.samples.length b.sample_rate := by
  simp [resample_to_16k, h]

/-!
## Claim theorems
-/

/-- **C4** (confirmed).  For every buffer whose `sample_rate` equals 16000,
`resample_to_16k` returns the input buffer unchanged — the very same value,
identical samples and sample rate (the Rust function returns the moved-in
buffer without allocating). -/
theorem claim_C4 : ∀ b : AudioBuffer, b.sample_rate = 16000 → resample_to_16k b = b := by
  intro b h
  simp [resample_to_16k, h]

theorem claim_C4_witness :
    resample_to_16k ⟨[⟨1, 2⟩], 16000⟩ = ⟨[⟨1, 2⟩], 16000⟩ :=
  claim_C4 ⟨[⟨1, 2⟩], 16000⟩ rfl

/-- **C5** (corrected).  For every buffer with a positive sample rate other
than 16000, `resample_to_16k` returns a buffer at 16000 Hz whose length is the
32-bit-float computation `trunc((len as f32) * (16000.0 / rate as f32))`.
This agrees with the claimed exact `⌊len * 16000 / rate⌋` for ordinary sizes
(e.g. 32000 samples at 32000 Hz give exactly 16000 — see the witness), but not
universally: see `claim_C5_counterexample`.  (The positivity hypothesis marks
the model boundary: at `sample_rate = 0` the Rust code computes with `f32`
infinity, which no real capture device produces.) -/
theorem claim_C5 : ∀ b : AudioBuffer, b.sample_rate ≠ 16000 → 0 < b.sample_rate →
    (resample_to_16k b).sample_rate = 16000 ∧
    (resample_to_16k b).samples.length = f32OutLen b.samples.length b.sample_rate :=
  fun b h _ => resample_length b h

theorem claim_C5_witness :
    (resample_to_16k ⟨List.replicate 32000 ⟨0, 1⟩, 32000⟩).sample_rate = 16000 ∧
    (resample_to_16k ⟨List.replicate 32000 ⟨0, 1⟩, 32000⟩).samples.length = 16000 := by
  have h := claim_C5 ⟨List.replicate 32000 ⟨0, 1⟩, 32000⟩ (by decide) (by decide)
  refine ⟨h.1, ?_⟩
  rw [h.2]
  simp only [List.length_replicate]
  decide

/-- **C5, counterexample to the claim as stated**: a buffer of 2²⁴ samples at
24000 Hz yields 11184811 output samples, while
`⌊16777216 * 16000 / 24000⌋ = 11184810`: the `f32` ratio `16000/24000` rounds
up to `11184811/2²⁴`, and multiplying by 2²⁴ samples makes the error cross an
integer boundary. -/
theorem claim_C5_counterexample :
    ¬ ((resample_to_16k ⟨List.replicate 16777216 ⟨0, 1⟩, 24000⟩).samples.length =
       16777216 * 16000 / 24000) := by
  have h := resample_length ⟨List.replicate 16777216 ⟨0, 1⟩, 24000⟩ (by decide)
  rw [h.2]
  simp only [List.length_replicate]
  decide

/-- **C7** (confirmed).  Calling `stop_recording` when `is_recording()` is
false returns `Ok("")` and performs no collaborator calls at all — in
particular zero supervisor invocations and zero paste calls. -/
theorem claim_C7 : ∀ (env : OrchEnv) (config : AppConfig),
    stop_recording env false config = (.ok "", []) := by
  intro env config
  rfl

/-- **C10** (confirmed).  `decrement_transcriptions` never underflows: at 0 it
returns `Ok`, leaves the config unchanged and never calls `save_config`; at a
positive count it decreases the counter by exactly one (`+ 1` recovers the old
value, so no wrap-around), monotonically.  Non-negativity is then preserved by
every call (the counter lives in `ℕ`, mirroring the guarded `u32`). -/
theorem claim_C10 : ∀ (saveRes : Except String Unit) (config : AppConfig),
    (config.free_transcriptions_left = 0 →
      decrement_transcriptions saveRes config = (.ok (), config, false)) ∧
    (0 < config.free_transcriptions_left →
      (decrement_transcriptions saveRes config).2.1.free_transcriptions_left + 1 =
        config.free_transcriptions_left ∧
      (decrement_transcriptions saveRes config).2.1.free_transcriptions_left ≤
        config.free_transcriptions_left) := by
  intro saveRes config
  constructor
  · intro h0
    simp [decrement_transcriptions, h0]
  · intro hpos
    cases saveRes with
    | ok u =>
        cases u
        simp only [decrement_transcriptions, if_pos hpos]
        omega
    | error e =>
        simp only [decrement_transcriptions, if_pos hpos]
        omega

theorem claim_C10_witness :
    decrement_transcriptions (.ok ()) ⟨"base", "en", 0⟩ = (.ok (), ⟨"base", "en", 0⟩, false) ∧
    (decrement_transcriptions (.ok ()) ⟨"base", "en", 5⟩).2.1.free_transcriptions_left + 1 = 5 :=
  ⟨(claim_C10 (.ok ()) ⟨"base", "en", 0⟩).1 rfl,
   ((claim_C10 (.ok ()) ⟨"base", "en", 5⟩).2 (by decide)).1⟩

/-- **C9** (confirmed).  For every audio input of fewer than `16000 / 4 = 4000`
samples, `transcribe_with_context` returns `Ok("")` without running inference,
for every language argument and detection flag. -/
theorem claim_C9 : ∀ (env : WhisperEnv) (au : List Qd) (language : Option String)
    (detect_language : Bool), au.length < 4000 →
    transcribe_with_context env au language detect_language = (.ok "", false) := by
  intro env au language detect_language h
  have h4 : au.length < 16000 / 4 := by omega
  unfold transcribe_with_context
  rw [if_pos h4]

theorem claim_C9_witness :
    transcribe_with_context ⟨.ok (), fun _ => .ok ["hola"]⟩
      (List.replicate 3999 ⟨0, 1⟩) (some "en") true = (.ok "", false) :=
  claim_C9 ⟨.ok (), fun _ => .ok ["hola"]⟩ (List.replicate 3999 ⟨0, 1⟩) (some "en") true
    (by simp only [List.length_replicate]; omega)

/-- **C3** (corrected).  If acquiring the default input device fails,
`RecorderWorker::start()` still returns `Ok(())` — `Command::Start` is merely
queued, and the worker thread drops the device error (`if let Ok(r)`) — while
the recording flag stays false and no recorder is installed (no crash: the
failure is absorbed as ordinary control flow). -/
theorem claim_C3 : ∀ (env : RecEnv) (st : RecWorkerState),
    st.recorderLive = false → st.flag = false →
    (∃ e, env.deviceStart st.attempts = .error e) →
    RecorderWorker_start env st =
      (.ok (), ⟨false, st.attempts + 1, false⟩) := by
  intro env st hrec hflag ⟨e, he⟩
  cases st
  simp only at hrec hflag
  subst hrec hflag
  simp [RecorderWorker_start, workerHandleStart, he]

theorem claim_C3_witness :
    RecorderWorker_start ⟨fun _ => .error "no input device"⟩ ⟨false, 0, false⟩ =
      (.ok (), ⟨false, 1, false⟩) :=
  claim_C3 ⟨fun _ => .error "no input device"⟩ ⟨false, 0, false⟩ rfl rfl
    ⟨"no input device", rfl⟩

/-- **C3, counterexample to the claim as stated**: with a device environment
that fails acquisition, `RecorderWorker::start()` returns `Ok(())`, not an
error — there is no `DeviceError` surfaced to the caller. -/
theorem claim_C3_counterexample :
    (RecorderWorker_start ⟨fun _ => .error "no input device"⟩ ⟨false, 0, false⟩).1 =
      .ok () := rfl

/-- **C1** (corrected).  When every read from the child yields no output
(EOF / blank line) and spawns and writes succeed, `transcribe_with_server`
respawns once and retries the same request exactly once — two writes of the
identical request line, at most two processes ever spawned in the call (one
beyond any initial spawn), so no third process — but the call then returns
`Ok("")`, not a terminal error: the Rust code performs no check after the
retry read and `Ok(line.trim().to_string())` yields the empty string. -/
theorem claim_C1 : ∀ (env : ServerEnv) (st : SupState)
    (model_id model_path wav_path language : String),
    (∀ n, env.spawnErr n = none) →
    (∀ n, env.writeErr n = none) →
    (∀ n, env.readRes n = .ok "") →
    (transcribe_with_server env st model_id model_path wav_path language).1 = .ok "" ∧
    (transcribe_with_server env st model_id model_path wav_path language).2.2.spawns =
      (if needsRestart st model_id then 1 else 0) + 1 ∧
    (transcribe_with_server env st model_id model_path wav_path language).2.2.writes =
      [requestLine language wav_path, requestLine language wav_path] ∧
    (transcribe_with_server env st model_id model_path wav_path language).2.2.reads = 2 := by
  intro env st model_id model_path wav_path language hs hw hr
  cases hneeds : needsRestart st model_id with
  | true =>
      simp [transcribe_with_server, hneeds, spawn_server, hs, hw, hr, strBlank, strTrim]
  | false =>
      cases hsv : st.server with
      | none => rw [needsRestart, hsv] at hneeds; cases hneeds
      | some srv =>
          simp [transcribe_with_server, hneeds, hsv, spawn_server, hs, hw, hr,
            strBlank, strTrim]

theorem claim_C1_witness :
    (transcribe_with_server ⟨fun _ => none, fun _ => none, fun _ => .ok ""⟩
        ⟨none, 0⟩ "base" "/models/base.bin" "/tmp/rec.wav" "es").1 = .ok "" ∧
    (transcribe_with_server ⟨fun _ => none, fun _ => none, fun _ => .ok ""⟩
        ⟨none, 0⟩ "base" "/models/base.bin" "/tmp/rec.wav" "es").2.2.spawns = 2 ∧
    (transcribe_with_server ⟨fun _ => none, fun _ => none, fun _ => .ok ""⟩
        ⟨none, 0⟩ "base" "/models/base.bin" "/tmp/rec.wav" "es").2.2.reads = 2 := by
  have h := claim_C1 ⟨fun _ => none, fun _ => none, fun _ => .ok ""⟩ ⟨none, 0⟩
    "base" "/models/base.bin" "/tmp/rec.wav" "es" (fun _ => rfl) (fun _ => rfl) (fun _ => rfl)
  exact ⟨h.1, by rw [h.2.1]; rfl, h.2.2.2⟩

/-- **C1, counterexample to the claim as stated**: with a live matching server
whose reads always yield EOF (and successful spawns/writes), the call returns
`Ok("")` — an `Ok`, not the claimed terminal `TranscriptionServerError` (no
such error exists anywhere in the code). -/
theorem claim_C1_counterexample :
    (transcribe_with_server ⟨fun _ => none, fun _ => none, fun _ => .ok ""⟩
        ⟨some ⟨"base", 0⟩, 1⟩ "base" "/models/base.bin" "/tmp/rec.wav" "es").1 =
      .ok "" := rfl

/-- **C2** (code bug).  The supervisor frames each request as
`"<language>\t<wav_path>"`, but the child server (`run_server`) binds the
*entire* line to `wav_path` without splitting off the language field, so the
file it opens is `"es\t/tmp/rec.wav"`, not `"/tmp/rec.wav"`: the writer's
framing and the reader's parsing do not agree, and every WAV open fails. -/
theorem claim_C2 :
    child_wav_path (requestLine "es" "/tmp/rec.wav") = some "es\t/tmp/rec.wav" ∧
    child_wav_path (requestLine "es" "/tmp/rec.wav") ≠ some "/tmp/rec.wav" := by
  constructor
  · decide
  · decide

/-- **C8** (confirmed).  (a) Whenever stopping capture and resampling yields a
buffer with an empty sample list, `stop_recording` returns `Ok("")` having only
emitted the processing status and stopped capture: no model lookup, no WAV
write, no server invocation, no paste.  (b) A buffer of silent-but-present
samples (8000 zero samples at 16 kHz) does *not* take this short-circuit: the
server is invoked. -/
theorem claim_C8 :
    (∀ (env : OrchEnv) (config : AppConfig) (buf : AudioBuffer),
        env.stopResult = .ok buf →
        (resample_to_16k buf).samples = [] →
        stop_recording env true config =
          (.ok "", [.emitStatus "processing", .stopCapture])) ∧
    OrchEffect.invokeServer ∈
      (stop_recording
        ⟨.ok ⟨List.replicate 8000 ⟨0, 1⟩, 16000⟩, .ok "/models/base.bin", .ok true,
         .ok (), .ok "/tmp/rec.wav", .ok "hola"⟩ true ⟨"base", "es", 5⟩).2 := by
  constructor
  · intro env config buf hstop hempty
    have hemp : (resample_to_16k buf).samples.isEmpty = true := by
      rw [hempty]; rfl
    simp only [stop_recording, Bool.not_true, hstop, hemp]
    rfl
  · decide

theorem claim_C8_witness :
    stop_recording
      ⟨.ok ⟨[], 16000⟩, .ok "/models/base.bin", .ok true, .ok (), .ok "/tmp/rec.wav",
       .ok "hola"⟩ true ⟨"base", "es", 5⟩ =
      (.ok "", [.emitStatus "processing", .stopCapture]) :=
  claim_C8.1 _ ⟨"base", "es", 5⟩ ⟨[], 16000⟩ rfl rfl

/-!
## Rounding bounds for the WAV encoder (C6)

Everything is carried out on integers: `n ≤ 32767·d` propagates through the
significand computation to the bound `trunc ≤ 32767`, so the `as i16` cast in
`write_temp_wav` never saturates.
-/

theorem bitlenAux_zero (fuel : ℕ) : bitlenAux fuel 0 = 0 := by
  cases fuel <;> rfl

theorem bitlenAux_spec : ∀ fuel n : ℕ, 0 < n → n ≤ fuel →
    n < 2 ^ bitlenAux fuel n ∧ 2 ^ bitlenAux fuel n ≤ 2 * n := by
  intro fuel
  induction fuel with
  | zero => intro n hn hle; omega
  | succ f ih =>
      intro n hn hle
      simp only [bitlenAux]
      rw [if_neg (by omega)]
      by_cases h1 : n = 1
      · subst h1
        norm_num [bitlenAux_zero]
      · have h2 : 2 ≤ n := by omega
        have hpos : 0 < n / 2 := Nat.div_pos h2 (by norm_num)
        have hle2 : n / 2 ≤ f := by omega
        obtain ⟨ha, hb⟩ := ih (n / 2) hpos hle2
        rw [pow_succ]
        omega

theorem bitlen_spec (n : ℕ) (h : 0 < n) : n < 2 ^ bitlen n ∧ 2 ^ bitlen n ≤ 2 * n :=
  bitlenAux_spec n n h le_rfl

/-- Upper half-ulp bound for `rneNum`, in multiplied-out integer form:
`rneNum a b ≤ a/b + 1/2`. -/
theorem rneNum_le (a b : ℤ) (hb : 0 < b) : 2 * b * rneNum a b ≤ 2 * a + b := by
  have hq : b * a.ediv b + a.emod b = a := Int.ediv_add_emod a b
  have hr0 : 0 ≤ a.emod b := Int.emod_nonneg a (by omega)
  have hrb : a.emod b < b := Int.emod_lt_of_pos a hb
  simp only [rneNum]
  split_ifs with h1 h2 h3 <;> nlinarith [hq, hr0, hrb]

theorem ediv_zero_left (b : ℤ) : Int.ediv 0 b = 0 := Int.zero_ediv b

theorem rneNum_nonneg (a b : ℤ) (ha : 0 ≤ a) (hb : 0 < b) : 0 ≤ rneNum a b := by
  have hquot : 0 ≤ Int.ediv a b := Int.ediv_nonneg ha hb.le
  simp only [rneNum]
  split_ifs <;> omega

/-- When the corrected exponent is non-negative, it never overshoots:
`d * 2^(qlog2 n d) ≤ n`, i.e. `2^(qlog2 n d) ≤ n / d`. -/
theorem qlog2_lower (n d : ℤ) (hn : 0 < n) (hd : 0 < d) (hE : 0 ≤ qlog2 n d) :
    d * 2 ^ (qlog2 n d).toNat ≤ n := by
  have hn' : 0 < n.toNat := by omega
  have hd' : 0 < d.toNat := by omega
  obtain ⟨ha1, ha2⟩ := bitlen_spec n.toNat hn'
  obtain ⟨hb1, hb2⟩ := bitlen_spec d.toNat hd'
  simp only [qlog2] at hE ⊢
  set Ln := bitlen n.toNat with hLn
  set Ld := bitlen d.toNat with hLd
  split_ifs at hE ⊢ with hc hp hq2
  · exact hp
  · -- `E = e0 - 1`; the bit-length bounds give `d * 2^(Ln - Ld - 1) < 2^(Ln - 1) ≤ n`
    have hLL : Ld + 1 ≤ Ln := by omega
    have hexp : ((Ln : ℤ) - Ld - 1).toNat = Ln - Ld - 1 := by omega
    rw [hexp]
    have hd2 : d < (2:ℤ) ^ Ld := by
      have := hb1
      zify at this
      rwa [Int.toNat_of_nonneg hd.le] at this
    have hn2 : (2:ℤ) ^ Ln ≤ 2 * n := by
      have := ha2
      zify at this
      rwa [Int.toNat_of_nonneg hn.le] at this
    have hsplit : (2:ℤ) ^ Ln = 2 ^ (Ln - 1) * 2 := by
      rw [← pow_succ]
      congr 1
      omega
    have hn3 : (2:ℤ) ^ (Ln - 1) ≤ n := by
      rw [hsplit] at hn2
      linarith
    have hmul : d * 2 ^ (Ln - Ld - 1) < (2:ℤ) ^ Ld * 2 ^ (Ln - Ld - 1) :=
      mul_lt_mul_of_pos_right hd2 (pow_pos (by norm_num) _)
    have hjoin : (2:ℤ) ^ Ld * 2 ^ (Ln - Ld - 1) = 2 ^ (Ln - 1) := by
      rw [← pow_add]
      congr 1
      omega
    rw [hjoin] at hmul
    linarith
  · exact absurd hE hc
  · omega

/-- Core bound: rounding a positive rational that is at most 32767 yields an
`f32` with non-negative numerator, positive power-of-two denominator, and a
toward-zero truncation inside `[0, 32767]` — the `as i16` cast cannot
overflow. -/
theorem f32roundPos_spec (n d : ℤ) (hn : 0 < n) (hd : 0 < d)
    (hub : n ≤ 32767 * d) :
    0 ≤ (f32roundPos n d).n ∧ 0 < (f32roundPos n d).d ∧
    0 ≤ (f32roundPos n d).trunc ∧ (f32roundPos n d).trunc ≤ 32767 := by
  have hE : qlog2 n d ≤ 14 := by
    by_contra hgt
    push_neg at hgt
    have hE0 : 0 ≤ qlog2 n d := by omega
    have hlow := qlog2_lower n d hn hd hE0
    have h15 : (15 : ℕ) ≤ (qlog2 n d).toNat := by omega
    have hpow : (2:ℤ) ^ (15:ℕ) ≤ 2 ^ (qlog2 n d).toNat := pow_le_pow_right₀ (by norm_num) h15
    have hcan : (2:ℤ) ^ (qlog2 n d).toNat ≤ 32767 :=
      le_of_mul_le_mul_left (by linarith) hd
    norm_num at hpow
    omega
  have hiff : ¬ (0 ≤ qlog2 n d - 23) := by omega
  have hs : 0 ≤ 23 - qlog2 n d := by omega
  have hrepr : f32roundPos n d =
      ⟨f32sig n d (qlog2 n d), 2 ^ (23 - qlog2 n d).toNat⟩ := by
    simp [f32roundPos, hiff]
  set k := (23 - qlog2 n d).toNat with hk
  have hD : (0:ℤ) < 2 ^ k := pow_pos (by norm_num) k
  have hmdef : f32sig n d (qlog2 n d) = rneNum (n * 2 ^ k) d := by
    simp [f32sig, hs, hk]
  set m := rneNum (n * 2 ^ k) d with hmm
  have hm0 : 0 ≤ m := rneNum_nonneg _ _ (by positivity) hd
  have hle := rneNum_le (n * 2 ^ k) d hd
  have hscaled : n * 2 ^ k ≤ 32767 * d * 2 ^ k :=
    mul_le_mul_of_nonneg_right hub hD.le
  have h1 : d * (2 * m) ≤ d * (2 * (32767 * 2 ^ k) + 1) := by nlinarith [hle, hscaled]
  have h2 : 2 * m ≤ 2 * (32767 * 2 ^ k) + 1 := le_of_mul_le_mul_left h1 hd
  have hmub : m ≤ 32767 * 2 ^ k := by omega
  rw [hrepr, hmdef]
  refine ⟨hm0, hD, ?_, ?_⟩
  · simp only [Qd.trunc, if_pos hm0]
    exact Int.ediv_nonneg hm0 hD.le
  · simp only [Qd.trunc, if_pos hm0]
    have hq : 2 ^ k * m.ediv (2 ^ k) + m.emod (2 ^ k) = m := Int.ediv_add_emod m (2 ^ k)
    have hr0 : 0 ≤ m.emod (2 ^ k) := Int.emod_nonneg m (by positivity)
    by_contra hgt
    push_neg at hgt
    have hbig : (2:ℤ) ^ k * 32768 ≤ 2 ^ k * m.ediv (2 ^ k) :=
      mul_le_mul_of_nonneg_left (by omega) hD.le
    nlinarith [hq, hr0, hmub, hbig, hD]

/-- Truncation toward zero commutes with negating the numerator. -/
theorem Qd.trunc_neg_n (p : Qd) (hp : 0 ≤ p.n) :
    Qd.trunc ⟨-p.n, p.d⟩ = -(p.trunc) := by
  by_cases h : p.n = 0
  · simp [Qd.trunc, h, ediv_zero_left]
  · have hneg : ¬ (0 ≤ -p.n) := by omega
    simp only [Qd.trunc, if_neg hneg, if_pos hp, neg_neg]

/-- The rounded product of any value in `[-32767·d, 32767·d] / d` truncates
into the `i16`-safe interval `[-32767, 32767]`. -/
theorem f32round_trunc_bounds (x : Qd) (hd : 0 < x.d)
    (hub : x.n ≤ 32767 * x.d) (hlb : -(32767 * x.d) ≤ x.n) :
    -32767 ≤ (f32round x).trunc ∧ (f32round x).trunc ≤ 32767 := by
  unfold f32round
  split_ifs with h0 hneg
  · norm_num [Qd.trunc, ediv_zero_left]
  · have hx : 0 < -x.n := by omega
    have hub' : -x.n ≤ 32767 * x.d := by omega
    obtain ⟨hn0, -, ht0, ht1⟩ := f32roundPos_spec (-x.n) x.d hx hd hub'
    dsimp only
    rw [Qd.trunc_neg_n _ hn0]
    omega
  · have hx : 0 < x.n := by omega
    obtain ⟨-, -, ht0, ht1⟩ := f32roundPos_spec x.n x.d hx hd hub
    omega

/-- Clamping keeps the denominator positive and bounds the value by
`-1 ≤ clamped ≤ 1` (as the cross-multiplied `-d ≤ n ≤ d`). -/
theorem clampUnit_spec (s : Qd) (h : 0 < s.d) :
    0 < (clampUnit s).d ∧ -(clampUnit s).d ≤ (clampUnit s).n ∧
    (clampUnit s).n ≤ (clampUnit s).d := by
  unfold clampUnit
  split_ifs with h1 h2 <;> refine ⟨?_, ?_, ?_⟩ <;> dsimp only <;> omega

/-- **C6** (confirmed).  Every 16-bit value written by the WAV encoder is
obtained by first clamping the sample to `[-1.0, 1.0]` and then multiplying by
32767 (in `f32`) with truncation toward zero, and that value always lies in
`[-32767, 32767]`: the saturating `as i16` cast never engages, so no overflow
and no panic.  The witness evaluates the encoder on `[0.5, -0.5, 1.5, -1.5]`:
the two out-of-range inputs are clamped before conversion, giving
`[16383, -16383, 32767, -32767]`. -/
theorem claim_C6 : ∀ (samples : List Qd) (i : ℕ) (s : Qd), 0 < s.d →
    samples[i]? = some s →
    (write_temp_wav samples)[i]? =
      some ((f32mul (clampUnit s) (Qd.ofInt 32767)).trunc) ∧
    -32767 ≤ (f32mul (clampUnit s) (Qd.ofInt 32767)).trunc ∧
    (f32mul (clampUnit s) (Qd.ofInt 32767)).trunc ≤ 32767 := by
  intro samples i s hs hget
  obtain ⟨hcd, hcl, hcu⟩ := clampUnit_spec s hs
  have hd : 0 < ((clampUnit s).mul (Qd.ofInt 32767)).d := by
    simp only [Qd.mul, Qd.ofInt]
    omega
  have hub : ((clampUnit s).mul (Qd.ofInt 32767)).n ≤
      32767 * ((clampUnit s).mul (Qd.ofInt 32767)).d := by
    simp only [Qd.mul, Qd.ofInt]
    nlinarith [hcu]
  have hlb : -(32767 * ((clampUnit s).mul (Qd.ofInt 32767)).d) ≤
      ((clampUnit s).mul (Qd.ofInt 32767)).n := by
    simp only [Qd.mul, Qd.ofInt]
    nlinarith [hcl]
  have hb := f32round_trunc_bounds ((clampUnit s).mul (Qd.ofInt 32767)) hd hub hlb
  have hmul : f32mul (clampUnit s) (Qd.ofInt 32767) =
      f32round ((clampUnit s).mul (Qd.ofInt 32767)) := rfl
  rw [hmul]
  refine ⟨?_, hb.1, hb.2⟩
  rw [write_temp_wav, List.getElem?_map wavSample samples i, hget]
  have hsat : wavSample s = (f32round ((clampUnit s).mul (Qd.ofInt 32767))).trunc := by
    unfold wavSample i16sat
    rw [← hmul]
    rw [if_neg (by rw [hmul]; omega), if_neg (by rw [hmul]; omega)]
  rw [Option.map_some', hsat]

theorem claim_C6_witness :
    (write_temp_wav [⟨1, 2⟩, ⟨-1, 2⟩, ⟨3, 2⟩, ⟨-3, 2⟩])[2]? =
      some ((f32mul (clampUnit ⟨3, 2⟩) (Qd.ofInt 32767)).trunc) ∧
    -32767 ≤ (f32mul (clampUnit ⟨3, 2⟩) (Qd.ofInt 32767)).trunc ∧
    (f32mul (clampUnit ⟨3, 2⟩) (Qd.ofInt 32767)).trunc ≤ 32767 ∧
    write_temp_wav [⟨1, 2⟩, ⟨-1, 2⟩, ⟨3, 2⟩, ⟨-3, 2⟩] =
      [16383, -16383, 32767, -32767] := by
  have h := claim_C6 [⟨1, 2⟩, ⟨-1, 2⟩, ⟨3, 2⟩, ⟨-3, 2⟩] 2 ⟨3, 2⟩ (by decide) (by decide)
  exact ⟨h.1, h.2.1, h.2.2, by decide⟩

/-!
## Evaluation sanity checks

Concrete evaluations of the embedded arithmetic (each value cross-checked
against IEEE-754 binary32 behaviour of the Rust code).
-/

example : f32div (Qd.ofNat 16000) (f32ofNat 32000) = ⟨8388608, 16777216⟩ := by decide

example : f32ofNat 16777217 = ⟨16777216, 1⟩ := by decide

example : f32OutLen 32000 32000 = 16000 := by decide

example : f32OutLen 44100 44100 = 16000 := by decide

example : f32OutLen 16777216 24000 = 11184811 := by decide

example : (16777216 * 16000) / 24000 = 11184810 := by decide

example : strTrim " hola \n" = "hola" := by decide

example : strBlank "\n" = true := by decide

example : strBlank "x" = false := by decide

/-- Closed instantiation of the C7 frame property at a concrete environment. -/
theorem claim_C7_witness :
    stop_recording
      ⟨.ok ⟨[⟨1, 2⟩], 48000⟩, .ok "/models/base.bin", .ok true, .ok (), .ok "/tmp/rec.wav",
       .ok "hola"⟩ false ⟨"base", "es", 5⟩ = (.ok "", []) :=
  claim_C7 _ ⟨"base", "es", 5⟩
